import Mathlib

/-! Link shortener (`main.go`): model and verification

A shallow embedding of the three request-handling functions of `main.go`
(`generateShortID`, `shortenHandler`, `redirectHandler`) together with the
package-level map `shortToURL`.

Modelling conventions.

* Go strings are modelled by Lean strings (sequences of characters).  Every
  string operation the program performs (concatenation, prefix trimming,
  equality with `""`, indexing into the all-ASCII `charset`) acts on the
  sequence of symbols, so it reads the same on both sides.
* `math/rand` is modelled by an infinite stream of raw natural numbers.
  `Intn n` consumes one raw number and reduces it into `[0, n)`; it panics for
  `n ≤ 0` as the library documents.  Quantifying over all streams covers every
  outcome of the random draws.
* A Go panic (index out of range, `make` with a length out of range) is the
  value `none`.
* The platform is a 64-bit one: an `int` argument is an integer, and
  `make([]byte, n)` panics with `len out of range` when `n < 0` or when `n`
  exceeds the runtime's allocation limit `maxAlloc` (`1 << 48`).  Exhaustion of
  the machine's memory below that limit is not modelled.
* `encoding/json` and `os.Getenv` are not part of the program; the decoder is a
  parameter returning the (possibly partially filled) `request` struct and an
  optional error, and the environment is a finite lookup function.
* A response records what the handler asked of `net/http`: the status code,
  the message given to `http.Error`, the target given to `http.Redirect`, the
  `Content-Type` it set and the map it handed to the JSON encoder.
-/

namespace LinkShortener

/-! ## Random source -/

/-- Raw outputs of the pseudo-random generator, as an infinite stream. -/
abbrev Rand := Nat → Nat

/-- The stream after its first raw number has been consumed. -/
def Rand.tail (r : Rand) : Rand := fun i => r (i + 1)

/-- Model of `rand.Intn(n)`: a number in `[0, n)`, panicking when `n ≤ 0`. -/
def Intn (r : Rand) (n : Int) : Option (Nat × Rand) :=
  if n ≤ 0 then none else some (r 0 % n.toNat, r.tail)

/-! ## `generateShortID` -/

/-- The constant `charset` of `generateShortID`. -/
def charset : String := "abcdefghijklmnopqrstuvwxyzABCDEFGHIJKLMNOPQRSTUVWXYZ0123456789"

/-- The body of `for i := range b`, run for the `todo` remaining indices
starting at index `i`: `b[i] = charset[rand.Intn(len(charset))]`. -/
def generateShortID.loop : Nat → Nat → List Char → Rand → Option (List Char × Rand)
  | 0, _, b, r => some (b, r)
  | todo + 1, i, b, r =>
    match Intn r (charset.length : Int) with
    | none => none
    | some (k, r') =>
      match charset.data.get? k with
      | none => none
      | some c =>
        if i < b.length then generateShortID.loop todo (i + 1) (b.set i c) r'
        else none

/-- The Go runtime's limit on the size of one allocation on a 64-bit platform
(`runtime.maxAlloc`, `1 << 48` bytes): `makeslice` panics with
`len out of range` for a byte slice longer than this. -/
def maxAlloc : Nat := 281474976710656

/-- Model of `generateShortID(n)`: `make([]byte, n)`, which panics for a
length that is negative or above `maxAlloc`, the loop over `range b`, then
`string(b)`.  The random source is threaded through. -/
def generateShortID (r : Rand) (n : Int) : Option (String × Rand) :=
  if n < 0 ∨ (maxAlloc : Int) < n then none
  else
    let b : List Char := List.replicate n.toNat (Char.ofNat 0)
    match generateShortID.loop b.length 0 b r with
    | none => none
    | some (b', r') => some (String.mk b', r')

/-! ## The link store and the HTTP surface -/

/-- The type of the package-level map `shortToURL` (`map[string]string`): a
lookup from identifier to target, `none` for an absent key. -/
abbrev Store := String → Option String

/-- The map right after `make(map[string]string)`. -/
def Store.empty : Store := fun _ => none

/-- The map assignment `m[k] = v`: inserts, or overwrites the entry of `k`. -/
def Store.set (m : Store) (k v : String) : Store :=
  fun k' => if k' = k then some v else m k'

/-- The process state the handlers share: the map and the random source. -/
structure State where
  shortToURL : Store
  rand : Rand

/-- The parts of `*http.Request` the handlers read. -/
structure Request where
  Method : String
  Path : String
  Body : String

/-- The local struct `request` of `shortenHandler`. -/
structure request where
  URL : String

/-- The outcome of `json.NewDecoder(r.Body).Decode(&body)` as a function of
the body: the struct as the decoder left it, and the error if any. -/
abbrev Decoder := String → request × Option String

/-- The process environment; `none` for an unset variable. -/
abbrev Env := String → Option String

/-- Model of `os.Getenv`: the value, or `""` for an unset variable. -/
def Getenv (env : Env) (key : String) : String := (env key).getD ""

/-- What a handler made `net/http` answer. -/
structure Response where
  status : Nat
  message : Option String := none
  redirect : Option String := none
  contentType : Option String := none
  json : List (String × String) := []

def MethodPost : String := "POST"
def StatusOK : Nat := 200
def StatusFound : Nat := 302
def StatusBadRequest : Nat := 400
def StatusNotFound : Nat := 404
def StatusMethodNotAllowed : Nat := 405

/-- Model of `http.Error(w, msg, code)`. -/
def httpError (msg : String) (code : Nat) : Response :=
  { status := code, message := some msg }

/-- Model of `http.NotFound(w, r)`. -/
def httpNotFound : Response :=
  httpError "404 page not found" StatusNotFound

/-- Model of `http.Redirect(w, r, url, code)`: the target as the handler
passed it. -/
def httpRedirect (url : String) (code : Nat) : Response :=
  { status := code, redirect := some url }

/-- Model of `strings.TrimPrefix(s, pre)`. -/
def TrimPrefix (s pre : String) : String :=
  if pre.data.isPrefixOf s.data then String.mk (s.data.drop pre.data.length) else s

/-- Model of `shortenHandler`. -/
def shortenHandler (decode : Decoder) (env : Env) (s : State) (r : Request) :
    Option (Response × State) :=
  if r.Method ≠ MethodPost then
    some (httpError "Only POST allowed" StatusMethodNotAllowed, s)
  else
    let (body, err) := decode r.Body
    if err ≠ none ∨ body.URL = "" then
      some (httpError "Invalid request body" StatusBadRequest, s)
    else
      match generateShortID s.rand 6 with
      | none => none
      | some (id, rand') =>
        let baseURL := Getenv env "BASE_URL"
        let baseURL := if baseURL = "" then "http://localhost:8080" else baseURL
        let shortLink := baseURL ++ "/short/" ++ id
        some ({ status := StatusOK, contentType := some "application/json",
                json := [("short", shortLink)] },
              { shortToURL := s.shortToURL.set id body.URL, rand := rand' })

/-- Model of `redirectHandler`. -/
def redirectHandler (s : State) (r : Request) : Response × State :=
  let id := TrimPrefix r.Path "/short/"
  match s.shortToURL id with
  | some originalURL => (httpRedirect originalURL StatusFound, s)
  | none => (httpNotFound, s)

/-- One request served by one of the two handlers. -/
inductive Call where
  | shorten (r : Request)
  | redirect (r : Request)

/-- Serving one request. -/
def step (decode : Decoder) (env : Env) (s : State) : Call → Option (Response × State)
  | .shorten r => shortenHandler decode env s r
  | .redirect r => some (redirectHandler s r)

/-- Serving a sequence of requests one after the other; the responses are
returned in order together with the final state. -/
def run (decode : Decoder) (env : Env) : State → List Call → Option (List Response × State)
  | s, [] => some ([], s)
  | s, c :: cs =>
    match step decode env s c with
    | none => none
    | some (resp, s') =>
      match run decode env s' cs with
      | none => none
      | some (resps, s'') => some (resp :: resps, s'')

/-! ## Reference descriptions used in the statements -/

/-- The stream after its first `k` raw numbers have been consumed. -/
def Rand.drop (r : Rand) (k : Nat) : Rand := fun i => r (i + k)

/-- The index the `j`-th call of `rand.Intn(len(charset))` returns. -/
def drawIndex (r : Rand) (j : Nat) : Nat := r j % 62

/-- The characters selected by the first `n` draws, in order. -/
def idChars : Nat → Rand → List Char
  | 0, _ => []
  | n + 1, r => charset.data.getD (drawIndex r 0) (Char.ofNat 0) :: idChars n r.tail

/-- Every entry of the map has a six-character alphanumeric key and a
non-empty target. -/
def Store.WellFormed (m : Store) : Prop :=
  ∀ k v, m k = some v →
    k.length = 6 ∧ (∀ c ∈ k.data, c.isAlphanum = true) ∧ v ≠ ""

/-- The prefix `shortenHandler` puts before `/short/<id>`: the value of
`BASE_URL`, or the local fallback when it is empty or unset. -/
def linkBase (env : Env) : String :=
  if Getenv env "BASE_URL" = "" then "http://localhost:8080" else Getenv env "BASE_URL"

/-- A shorten request passes both checks of `shortenHandler`: the method is
`POST`, the body decodes without error and its `url` field is not empty. -/
def Accepted (decode : Decoder) (r : Request) : Prop :=
  r.Method = MethodPost ∧ (decode r.Body).2 = none ∧ (decode r.Body).1.URL ≠ ""

/-- A decoder for the worked examples: it knows three bodies and rejects every
other one as malformed. -/
def sampleDecode : Decoder := fun body =>
  if body = "\x7b\"url\":\"https://example.com\"\x7d" then (⟨"https://example.com"⟩, none)
  else if body = "\x7b\"url\":\"https://example.org\"\x7d" then (⟨"https://example.org"⟩, none)
  else if body = "\x7b\"url\":\"\"\x7d" then (⟨""⟩, none)
  else (⟨""⟩, some "invalid character")

/-- An environment in which no variable is set. -/
def emptyEnv : Env := fun _ => none

/-- A random source that always returns the raw number `0`. -/
def zeroRand : Rand := fun _ => 0

/-- A random source that counts upwards. -/
def countRand : Rand := fun j => j

/-- The state of a freshly started process with the counting source. -/
def freshState : State := { shortToURL := Store.empty, rand := countRand }

/-- The state of a freshly started process with the constant source. -/
def stuckState : State := { shortToURL := Store.empty, rand := zeroRand }

/-- A well-formed shorten request for `https://example.com`. -/
def postCom : Request :=
  { Method := "POST", Path := "/shorten", Body := "\x7b\"url\":\"https://example.com\"\x7d" }

/-- A well-formed shorten request for `https://example.org`. -/
def postOrg : Request :=
  { Method := "POST", Path := "/shorten", Body := "\x7b\"url\":\"https://example.org\"\x7d" }

/-- A shorten request with an empty `url`. -/
def postEmpty : Request :=
  { Method := "POST", Path := "/shorten", Body := "\x7b\"url\":\"\"\x7d" }

/-- A shorten request whose body is not JSON. -/
def postGarbage : Request :=
  { Method := "POST", Path := "/shorten", Body := "not json" }

/-- A `GET` sent to the shorten endpoint, with a body that is not JSON. -/
def getShorten : Request :=
  { Method := "GET", Path := "/shorten", Body := "not json" }

/-- A `GET` of the short link `/short/abcdef`. -/
def getAbcdef : Request :=
  { Method := "GET", Path := "/short/abcdef", Body := "" }

/-- A `GET` of a short link nobody created. -/
def getUnknown : Request :=
  { Method := "GET", Path := "/short/unknownid", Body := "" }

/-! ## Facts about the character set -/

theorem charset_length : charset.length = 62 := by decide

theorem charset_data_length : charset.data.length = 62 := by decide

theorem charset_isAlphanum : ∀ c ∈ charset.data, c.isAlphanum = true := by decide

theorem mem_charset_of_isAlphanum (c : Char) (h : c.isAlphanum = true) :
    c ∈ charset.data := by
  have hc : c = Char.ofNat c.toNat := by simp
  have hr : (97 ≤ c.toNat ∧ c.toNat ≤ 122) ∨ (65 ≤ c.toNat ∧ c.toNat ≤ 90) ∨
      (48 ≤ c.toNat ∧ c.toNat ≤ 57) := by
    simp only [Char.isAlphanum, Char.isAlpha, Char.isUpper, Char.isLower, Char.isDigit,
      Bool.or_eq_true, Bool.and_eq_true, decide_eq_true_eq, UInt32.le_def, ge_iff_le] at h
    simp only [Char.toNat]
    rcases h with (h | h) | h
    · right; left; exact h
    · left; exact h
    · right; right; exact h
  have key : ∀ n : Nat, n < 123 →
      ((97 ≤ n ∧ n ≤ 122) ∨ (65 ≤ n ∧ n ≤ 90) ∨ (48 ≤ n ∧ n ≤ 57)) →
      Char.ofNat n ∈ charset.data := by
    decide
  rw [hc]
  exact key _ (by omega) hr

theorem drawIndex_lt (r : Rand) (j : Nat) : drawIndex r j < 62 :=
  Nat.mod_lt _ (by decide)

theorem Intn_charset (r : Rand) :
    Intn r (charset.length : Int) = some (drawIndex r 0, r.tail) := by
  rw [charset_length]
  rfl

theorem Rand.drop_tail (r : Rand) (k : Nat) : r.tail.drop k = r.drop (k + 1) := rfl

theorem Rand.drop_zero (r : Rand) : r.drop 0 = r := rfl

theorem drawIndex_tail (r : Rand) (j : Nat) : drawIndex r.tail j = drawIndex r (j + 1) := rfl

theorem charset_get?_drawIndex (r : Rand) :
    charset.data.get? (drawIndex r 0) =
      some (charset.data.getD (drawIndex r 0) (Char.ofNat 0)) := by
  have h : drawIndex r 0 < charset.data.length := by
    rw [charset_data_length]; exact drawIndex_lt r 0
  simp [List.getD, List.getElem?_eq_getElem h]

theorem take_succ_set (b : List Char) (i : Nat) (c : Char) (h : i < b.length) :
    (b.set i c).take (i + 1) = b.take i ++ [c] := by
  induction b generalizing i with
  | nil => simp at h
  | cons x xs ih =>
    cases i with
    | zero => simp
    | succ j =>
      have hj : j < xs.length := by simpa using h
      simp [ih j hj]

theorem loop_eq (todo : Nat) : ∀ (i : Nat) (b : List Char) (r : Rand),
    i + todo = b.length →
    generateShortID.loop todo i b r = some (b.take i ++ idChars todo r, r.drop todo) := by
  induction todo with
  | zero =>
    intro i b r h
    have hi : i = b.length := by omega
    simp [generateShortID.loop, idChars, hi, Rand.drop_zero]
  | succ t ih =>
    intro i b r h
    have hi : i < b.length := by omega
    rw [generateShortID.loop, Intn_charset]
    simp only [charset_get?_drawIndex, hi, if_true]
    rw [ih (i + 1) _ r.tail (by simp; omega), take_succ_set b i _ hi, Rand.drop_tail]
    simp [idChars]

theorem generateShortID_eq (r : Rand) (n : Int) (hn : 0 ≤ n) (hmax : n ≤ (maxAlloc : Int)) :
    generateShortID r n = some (String.mk (idChars n.toNat r), r.drop n.toNat) := by
  unfold generateShortID
  rw [if_neg (by omega)]
  simp only
  rw [loop_eq _ 0 _ r (by simp)]
  simp

theorem idChars_length (n : Nat) : ∀ r : Rand, (idChars n r).length = n := by
  induction n with
  | zero => intro r; rfl
  | succ k ih => intro r; simp [idChars, ih]

theorem getD_mem_charset (k : Nat) (hk : k < 62) :
    charset.data.getD k (Char.ofNat 0) ∈ charset.data := by
  have h : k < charset.data.length := by rw [charset_data_length]; exact hk
  simp [List.getD, List.getElem?_eq_getElem h]

theorem idChars_mem (n : Nat) : ∀ (r : Rand) (c : Char), c ∈ idChars n r → c ∈ charset.data := by
  induction n with
  | zero => intro r c h; simp [idChars] at h
  | succ k ih =>
    intro r c h
    simp only [idChars, List.mem_cons] at h
    rcases h with h | h
    · rw [h]; exact getD_mem_charset _ (drawIndex_lt r 0)
    · exact ih _ _ h

theorem TrimPrefix_append (pre id : String) : TrimPrefix (pre ++ id) pre = id := by
  have h : pre.data.isPrefixOf (pre ++ id).data = true := by
    rw [String.data_append, List.isPrefixOf_iff_prefix]
    exact List.prefix_append _ _
  unfold TrimPrefix
  rw [if_pos h, String.data_append, List.drop_left]

theorem String.mk_length_idChars (n : Nat) (r : Rand) : (String.mk (idChars n r)).length = n :=
  idChars_length n r

/-! ## Facts about the handlers -/

theorem shortenHandler_not_post (decode : Decoder) (env : Env) (s : State) (r : Request)
    (hm : r.Method ≠ MethodPost) :
    shortenHandler decode env s r =
      some (httpError "Only POST allowed" StatusMethodNotAllowed, s) := by
  unfold shortenHandler
  rw [if_pos hm]

theorem shortenHandler_invalid (decode : Decoder) (env : Env) (s : State) (r : Request)
    (hm : r.Method = MethodPost)
    (hb : (decode r.Body).2 ≠ none ∨ (decode r.Body).1.URL = "") :
    shortenHandler decode env s r =
      some (httpError "Invalid request body" StatusBadRequest, s) := by
  unfold shortenHandler
  rw [if_neg (not_not.mpr hm)]
  simp only
  rw [if_pos hb]

theorem shortenHandler_accepted (decode : Decoder) (env : Env) (s : State) (r : Request)
    (h : Accepted decode r) :
    shortenHandler decode env s r =
      some ({ status := StatusOK, contentType := some "application/json",
              json := [("short", linkBase env ++ "/short/" ++ String.mk (idChars 6 s.rand))] },
            { shortToURL := s.shortToURL.set (String.mk (idChars 6 s.rand)) (decode r.Body).1.URL,
              rand := s.rand.drop 6 }) := by
  obtain ⟨hm, he, hu⟩ := h
  have hb : ¬ ((decode r.Body).2 ≠ none ∨ (decode r.Body).1.URL = "") := by
    rintro (h | h)
    · exact h he
    · exact hu h
  unfold shortenHandler
  rw [if_neg (not_not.mpr hm)]
  simp only
  rw [if_neg hb, generateShortID_eq s.rand 6 (by decide) (by decide)]
  simp only [linkBase]
  rfl

theorem generateShortID_six (r : Rand) :
    generateShortID r 6 = some (String.mk (idChars 6 r), r.drop 6) :=
  generateShortID_eq r 6 (by decide) (by decide)

theorem redirectHandler_found (s : State) (q : Request) (t : String)
    (h : s.shortToURL (TrimPrefix q.Path "/short/") = some t) :
    redirectHandler s q = (httpRedirect t StatusFound, s) := by
  unfold redirectHandler
  simp only [h]

theorem redirectHandler_missing (s : State) (q : Request)
    (h : s.shortToURL (TrimPrefix q.Path "/short/") = none) :
    redirectHandler s q = (httpNotFound, s) := by
  unfold redirectHandler
  simp only [h]

theorem redirectHandler_state (s : State) (q : Request) : (redirectHandler s q).2 = s := by
  cases h : s.shortToURL (TrimPrefix q.Path "/short/") with
  | none => rw [redirectHandler_missing s q h]
  | some t => rw [redirectHandler_found s q t h]

theorem redirectHandler_congr (s s' : State) (q : Request)
    (h : s'.shortToURL (TrimPrefix q.Path "/short/") =
      s.shortToURL (TrimPrefix q.Path "/short/")) :
    (redirectHandler s' q).1 = (redirectHandler s q).1 := by
  cases hs : s.shortToURL (TrimPrefix q.Path "/short/") with
  | none => rw [redirectHandler_missing s q hs, redirectHandler_missing s' q (h.trans hs)]
  | some t => rw [redirectHandler_found s q t hs, redirectHandler_found s' q t (h.trans hs)]

theorem Store.set_same (m : Store) (k v : String) : m.set k v k = some v := by
  simp [Store.set]

theorem Store.set_other (m : Store) (k v k' : String) (h : k' ≠ k) : m.set k v k' = m k' := by
  simp [Store.set, h]

theorem idChars_isAlphanum (n : Nat) (r : Rand) :
    ∀ c ∈ (String.mk (idChars n r)).data, c.isAlphanum = true :=
  fun c hc => charset_isAlphanum c (idChars_mem n r c hc)

theorem step_cases (decode : Decoder) (env : Env) (s : State) (c : Call) :
    (∃ resp, step decode env s c = some (resp, s)) ∨
    (∃ r resp, c = Call.shorten r ∧ Accepted decode r ∧
      step decode env s c = some (resp,
        { shortToURL := s.shortToURL.set (String.mk (idChars 6 s.rand)) (decode r.Body).1.URL,
          rand := s.rand.drop 6 })) := by
  cases c with
  | redirect q =>
    left
    have h : redirectHandler s q = ((redirectHandler s q).1, s) :=
      Prod.ext rfl (redirectHandler_state s q)
    exact ⟨(redirectHandler s q).1, (congrArg some h : some (redirectHandler s q) = _)⟩
  | shorten r =>
    by_cases hm : r.Method = MethodPost
    · by_cases hb : (decode r.Body).2 ≠ none ∨ (decode r.Body).1.URL = ""
      · left
        exact ⟨_, shortenHandler_invalid decode env s r hm hb⟩
      · right
        have hacc : Accepted decode r :=
          ⟨hm, not_not.mp (fun h => hb (Or.inl h)), fun h => hb (Or.inr h)⟩
        exact ⟨r, _, rfl, hacc, shortenHandler_accepted decode env s r hacc⟩
    · left
      exact ⟨_, shortenHandler_not_post decode env s r hm⟩

theorem run_cons (decode : Decoder) (env : Env) (s s₁ s₂ : State) (c : Call) (cs : List Call)
    (resp : Response) (resps : List Response)
    (h₁ : step decode env s c = some (resp, s₁))
    (h₂ : run decode env s₁ cs = some (resps, s₂)) :
    run decode env s (c :: cs) = some (resp :: resps, s₂) := by
  simp only [run, h₁, h₂]

theorem run_invariant (decode : Decoder) (env : Env) (P : State → Prop)
    (hstep : ∀ s r, P s → Accepted decode r →
      P { shortToURL := s.shortToURL.set (String.mk (idChars 6 s.rand)) (decode r.Body).1.URL,
          rand := s.rand.drop 6 })
    (cs : List Call) : ∀ s, P s →
    ∃ resps s', run decode env s cs = some (resps, s') ∧ P s' := by
  induction cs with
  | nil => intro s hs; exact ⟨[], s, rfl, hs⟩
  | cons c cs ih =>
    intro s hs
    rcases step_cases decode env s c with ⟨resp, h⟩ | ⟨r, resp, _, hacc, h⟩
    · obtain ⟨resps, s', hrun, hP⟩ := ih s hs
      exact ⟨_, s', run_cons decode env s s s' c cs resp resps h hrun, hP⟩
    · obtain ⟨resps, s', hrun, hP⟩ := ih _ (hstep s r hs hacc)
      exact ⟨_, s', run_cons decode env s _ s' c cs resp resps h hrun, hP⟩

theorem Store.empty_wellFormed : Store.empty.WellFormed := by
  intro k v h
  simp [Store.empty] at h

theorem Store.set_wellFormed (m : Store) (r : Rand) (v : String) (hm : m.WellFormed)
    (hv : v ≠ "") : (m.set (String.mk (idChars 6 r)) v).WellFormed := by
  intro k w h
  by_cases hk : k = String.mk (idChars 6 r)
  · rw [hk, Store.set_same] at h
    rw [hk, ← Option.some.inj h]
    exact ⟨String.mk_length_idChars 6 r, idChars_isAlphanum 6 r, hv⟩
  · rw [Store.set_other m _ v k hk] at h
    exact hm k w h

theorem Store.lookup_malformed (m : Store) (hm : m.WellFormed) (k : String)
    (hk : k = "" ∨ k.length ≠ 6 ∨ ∃ c ∈ k.data, c.isAlphanum = false) : m k = none := by
  cases h : m k with
  | none => rfl
  | some v =>
    obtain ⟨hlen, halnum, _⟩ := hm k v h
    rcases hk with hk | hk | ⟨c, hc, hfalse⟩
    · rw [hk] at hlen; exact absurd hlen (by decide)
    · exact absurd hlen hk
    · rw [halnum c hc] at hfalse; exact absurd hfalse (by decide)

theorem Store.set_isSome (m : Store) (k v id : String) (h : (m id).isSome = true) :
    (m.set k v id).isSome = true := by
  by_cases hk : id = k
  · rw [hk, Store.set_same]; rfl
  · rw [Store.set_other m k v id hk]; exact h

theorem run_key_persists (decode : Decoder) (env : Env) (id : String) (cs : List Call)
    (s : State) (h : (s.shortToURL id).isSome = true) :
    ∃ resps s', run decode env s cs = some (resps, s') ∧ (s'.shortToURL id).isSome = true :=
  run_invariant decode env (fun st => (st.shortToURL id).isSome = true)
    (fun st _ hst _ => Store.set_isSome st.shortToURL _ _ id hst) cs s h

theorem run_kept_or_regenerated (decode : Decoder) (env : Env) (id t : String)
    (cs : List Call) : ∀ s : State, s.shortToURL id = some t →
    ∃ resps s', run decode env s cs = some (resps, s') ∧
      (s'.shortToURL id = some t ∨
        ∃ cs₁ r cs₂ resps₁ s₁ rand', cs = cs₁ ++ Call.shorten r :: cs₂ ∧
          run decode env s cs₁ = some (resps₁, s₁) ∧ Accepted decode r ∧
          generateShortID s₁.rand 6 = some (id, rand')) := by
  induction cs with
  | nil => intro s hs; exact ⟨[], s, rfl, Or.inl hs⟩
  | cons c cs ih =>
    intro s hs
    have lift : ∀ (resp : Response) (s₁ : State), step decode env s c = some (resp, s₁) →
        s₁.shortToURL id = some t →
        ∃ resps s', run decode env s (c :: cs) = some (resps, s') ∧
          (s'.shortToURL id = some t ∨
            ∃ cs₁ r cs₂ resps₁ s₁ rand', c :: cs = cs₁ ++ Call.shorten r :: cs₂ ∧
              run decode env s cs₁ = some (resps₁, s₁) ∧ Accepted decode r ∧
              generateShortID s₁.rand 6 = some (id, rand')) := by
      intro resp s₁ hstep hs₁
      obtain ⟨resps, s', hrun, hor⟩ := ih s₁ hs₁
      refine ⟨_, s', run_cons decode env s s₁ s' c cs resp resps hstep hrun, ?_⟩
      rcases hor with hkeep | ⟨cs₁, r, cs₂, resps₁, s₂, rand', hsplit, hrun₁, hacc, hgen⟩
      · exact Or.inl hkeep
      · right
        refine ⟨c :: cs₁, r, cs₂, resp :: resps₁, s₂, rand', ?_, ?_, hacc, hgen⟩
        · rw [hsplit]; rfl
        · exact run_cons decode env s s₁ s₂ c cs₁ resp resps₁ hstep hrun₁
    rcases step_cases decode env s c with ⟨resp, h⟩ | ⟨r, resp, hc, hacc, h⟩
    · exact lift resp s h hs
    · by_cases hid : id = String.mk (idChars 6 s.rand)
      · obtain ⟨resps, s', hrun, _⟩ := run_key_persists decode env id cs
          { shortToURL := s.shortToURL.set (String.mk (idChars 6 s.rand)) (decode r.Body).1.URL,
            rand := s.rand.drop 6 }
          (Store.set_isSome s.shortToURL (String.mk (idChars 6 s.rand))
            (decode r.Body).1.URL id (by rw [hs]; rfl))
        refine ⟨_, s', run_cons decode env s _ s' c cs resp resps h hrun, Or.inr ?_⟩
        refine ⟨[], r, cs, [], s, s.rand.drop 6, ?_, rfl, hacc, ?_⟩
        · rw [hc]; rfl
        · rw [hid]; exact generateShortID_six s.rand
      · exact lift resp _ h (by
          show Store.set s.shortToURL _ _ id = some t
          rw [Store.set_other _ _ _ id hid]; exact hs)

/-! ## The claims about single requests -/

/-- C1: round trip.  For every state, every non-empty URL `u` and every random
source, a `POST` whose body decodes without error to `url = u` is answered
`200`; the identifier `generateShortID(6)` produced is mapped to exactly `u`
in the new store, and a request for the path `"/short/" ++ id` served right
afterwards is answered `302 Found` with redirect target `u`. -/
theorem shorten_then_redirect_round_trip (decode : Decoder) (env : Env) (s : State)
    (r : Request) (u : String)
    (hm : r.Method = MethodPost) (he : (decode r.Body).2 = none)
    (hurl : (decode r.Body).1.URL = u) (hu : u ≠ "") :
    ∃ resp s' id, shortenHandler decode env s r = some (resp, s') ∧
      resp.status = StatusOK ∧
      generateShortID s.rand 6 = some (id, s'.rand) ∧
      s'.shortToURL id = some u ∧
      ∀ q : Request, q.Path = "/short/" ++ id →
        (redirectHandler s' q).1.status = StatusFound ∧
        (redirectHandler s' q).1.redirect = some u := by
  have hacc : Accepted decode r := ⟨hm, he, by rw [hurl]; exact hu⟩
  refine ⟨_, _, String.mk (idChars 6 s.rand), shortenHandler_accepted decode env s r hacc,
    rfl, generateShortID_six s.rand, ?_, ?_⟩
  · rw [← hurl]; exact Store.set_same _ _ _
  · intro q hq
    have hk : Store.set s.shortToURL (String.mk (idChars 6 s.rand)) (decode r.Body).1.URL
        (TrimPrefix q.Path "/short/") = some u := by
      rw [hq, TrimPrefix_append, ← hurl]
      exact Store.set_same _ _ _
    rw [redirectHandler_found _ q u hk]
    exact ⟨rfl, rfl⟩

/-- C1 at a concrete input: shortening `https://example.com` in a fresh
process and following the returned link. -/
theorem shorten_then_redirect_round_trip_witness :
    ∃ resp s' id, shortenHandler sampleDecode emptyEnv freshState postCom = some (resp, s') ∧
      resp.status = StatusOK ∧
      generateShortID freshState.rand 6 = some (id, s'.rand) ∧
      s'.shortToURL id = some "https://example.com" ∧
      ∀ q : Request, q.Path = "/short/" ++ id →
        (redirectHandler s' q).1.status = StatusFound ∧
        (redirectHandler s' q).1.redirect = some "https://example.com" :=
  shorten_then_redirect_round_trip sampleDecode emptyEnv freshState postCom
    "https://example.com" (by decide) (by decide) (by decide) (by decide)

/-- C3: unknown key.  For every state and every request path, when the path
with the prefix `/short/` trimmed is not a key of the store, `redirectHandler`
answers `404` and redirects nowhere; and in every case, found or not,
`redirectHandler` returns (it cannot panic) and leaves the state, the store
included, unchanged. -/
theorem redirect_unknown_not_found (s : State) (q : Request) :
    (s.shortToURL (TrimPrefix q.Path "/short/") = none →
      (redirectHandler s q).1.status = StatusNotFound ∧
      (redirectHandler s q).1.redirect = none) ∧
    (redirectHandler s q).2 = s ∧
    (redirectHandler s q).2.shortToURL = s.shortToURL := by
  refine ⟨?_, redirectHandler_state s q, by rw [redirectHandler_state]⟩
  intro h
  rw [redirectHandler_missing s q h]
  exact ⟨rfl, rfl⟩

/-- C3 at a concrete input: an unknown link in a fresh process. -/
theorem redirect_unknown_not_found_witness :
    (redirectHandler freshState getUnknown).1.status = StatusNotFound ∧
    (redirectHandler freshState getUnknown).1.redirect = none ∧
    (redirectHandler freshState getUnknown).2.shortToURL = freshState.shortToURL :=
  ⟨((redirect_unknown_not_found freshState getUnknown).1 rfl).1,
   ((redirect_unknown_not_found freshState getUnknown).1 rfl).2,
   (redirect_unknown_not_found freshState getUnknown).2.2⟩

/-- C4: for every `POST`, `shortenHandler` returns, and its answer is `400`
exactly when decoding the body gave an error or left the `url` field empty.
When the answer is `400` the store is unchanged and no random draw was
consumed; otherwise the answer is `200`, an identifier was generated and the
store now maps it to the decoded URL. -/
theorem shorten_bad_request_iff (decode : Decoder) (env : Env) (s : State) (r : Request)
    (hm : r.Method = MethodPost) :
    ∃ resp s', shortenHandler decode env s r = some (resp, s') ∧
      (resp.status = StatusBadRequest ↔
        ((decode r.Body).2 ≠ none ∨ (decode r.Body).1.URL = "")) ∧
      (resp.status = StatusBadRequest →
        s'.shortToURL = s.shortToURL ∧ s'.rand = s.rand) ∧
      (resp.status ≠ StatusBadRequest →
        resp.status = StatusOK ∧
        ∃ id, generateShortID s.rand 6 = some (id, s'.rand) ∧
          s'.shortToURL = s.shortToURL.set id (decode r.Body).1.URL ∧
          s'.shortToURL id = some (decode r.Body).1.URL) := by
  by_cases hb : (decode r.Body).2 ≠ none ∨ (decode r.Body).1.URL = ""
  · refine ⟨_, _, shortenHandler_invalid decode env s r hm hb, ?_, ?_, ?_⟩
    · exact ⟨fun _ => hb, fun _ => rfl⟩
    · intro _; exact ⟨rfl, rfl⟩
    · intro h; exact absurd rfl h
  · have hacc : Accepted decode r :=
      ⟨hm, not_not.mp (fun h => hb (Or.inl h)), fun h => hb (Or.inr h)⟩
    refine ⟨_, _, shortenHandler_accepted decode env s r hacc, ?_, ?_, ?_⟩
    · constructor
      · intro h; exact absurd (show StatusOK = StatusBadRequest from h) (by decide)
      · intro h; exact absurd h hb
    · intro h; exact absurd (show StatusOK = StatusBadRequest from h) (by decide)
    · intro _
      exact ⟨rfl, _, generateShortID_six s.rand, rfl, Store.set_same _ _ _⟩

/-- C4 at a concrete input: a `POST` whose `url` is the empty string. -/
theorem shorten_bad_request_iff_witness :
    ∃ resp s', shortenHandler sampleDecode emptyEnv freshState postEmpty = some (resp, s') ∧
      (resp.status = StatusBadRequest ↔
        ((sampleDecode postEmpty.Body).2 ≠ none ∨ (sampleDecode postEmpty.Body).1.URL = "")) ∧
      (resp.status = StatusBadRequest →
        s'.shortToURL = freshState.shortToURL ∧ s'.rand = freshState.rand) ∧
      (resp.status ≠ StatusBadRequest →
        resp.status = StatusOK ∧
        ∃ id, generateShortID freshState.rand 6 = some (id, s'.rand) ∧
          s'.shortToURL = freshState.shortToURL.set id (sampleDecode postEmpty.Body).1.URL ∧
          s'.shortToURL id = some (sampleDecode postEmpty.Body).1.URL) :=
  shorten_bad_request_iff sampleDecode emptyEnv freshState postEmpty (by decide)

/-- C5: for every request whose method is not `POST`, whatever its body and
whatever the decoder makes of it, `shortenHandler` answers
`405 Method Not Allowed` (never `400`) and leaves the state, the store
included, unchanged. -/
theorem shorten_method_not_allowed (decode : Decoder) (env : Env) (s : State) (r : Request)
    (hm : r.Method ≠ MethodPost) :
    ∃ resp s', shortenHandler decode env s r = some (resp, s') ∧
      resp.status = StatusMethodNotAllowed ∧ resp.status ≠ StatusBadRequest ∧
      s'.shortToURL = s.shortToURL ∧ s' = s :=
  ⟨_, _, shortenHandler_not_post decode env s r hm, rfl, by decide, rfl, rfl⟩

/-- C5 at a concrete input: a `GET` with a body that is not JSON. -/
theorem shorten_method_not_allowed_witness :
    (sampleDecode getShorten.Body).2 ≠ none ∧
    ∃ resp s', shortenHandler sampleDecode emptyEnv freshState getShorten = some (resp, s') ∧
      resp.status = StatusMethodNotAllowed ∧ resp.status ≠ StatusBadRequest ∧
      s'.shortToURL = freshState.shortToURL ∧ s' = freshState :=
  ⟨by decide, shorten_method_not_allowed sampleDecode emptyEnv freshState getShorten (by decide)⟩

/-- C10: frame of an accepted shorten request.  With `id` the identifier the
request generated, the store afterwards agrees with the store before at every
key `k ≠ id` (so `k` is present afterwards exactly when it was present before,
with the same target); hence every request whose trimmed path is not `id` is
answered as before, every earlier link under another identifier still
redirects to its URL, and when the same URL is shortened again under a
different identifier both links redirect to it. -/
theorem shorten_frame (decode : Decoder) (env : Env) (s : State) (r : Request) (u : String)
    (hm : r.Method = MethodPost) (he : (decode r.Body).2 = none)
    (hurl : (decode r.Body).1.URL = u) (hu : u ≠ "") :
    ∃ resp s' id, shortenHandler decode env s r = some (resp, s') ∧
      generateShortID s.rand 6 = some (id, s'.rand) ∧
      (∀ k, k ≠ id → s'.shortToURL k = s.shortToURL k) ∧
      (∀ k, k ≠ id → ((s'.shortToURL k).isSome = true ↔ (s.shortToURL k).isSome = true)) ∧
      (∀ q : Request, TrimPrefix q.Path "/short/" ≠ id →
        (redirectHandler s' q).1 = (redirectHandler s q).1) ∧
      (∀ k t, k ≠ id → s.shortToURL k = some t → ∀ q : Request, q.Path = "/short/" ++ k →
        (redirectHandler s' q).1.status = StatusFound ∧
        (redirectHandler s' q).1.redirect = some t) ∧
      (∀ r₂ : Request, r₂.Method = MethodPost → (decode r₂.Body).2 = none →
        (decode r₂.Body).1.URL = u →
        ∃ resp₂ s'' id₂, shortenHandler decode env s' r₂ = some (resp₂, s'') ∧
          generateShortID s'.rand 6 = some (id₂, s''.rand) ∧
          (id₂ ≠ id → ∀ q : Request, q.Path = "/short/" ++ id ∨ q.Path = "/short/" ++ id₂ →
            (redirectHandler s'' q).1.status = StatusFound ∧
            (redirectHandler s'' q).1.redirect = some u)) := by
  have hacc : Accepted decode r := ⟨hm, he, by rw [hurl]; exact hu⟩
  have hframe : ∀ (m : Store) (id v k : String), k ≠ id → Store.set m id v k = m k :=
    fun m id v k hk => Store.set_other m id v k hk
  refine ⟨_, _, String.mk (idChars 6 s.rand), shortenHandler_accepted decode env s r hacc,
    generateShortID_six s.rand, ?_, ?_, ?_, ?_, ?_⟩
  · intro k hk; exact hframe _ _ _ k hk
  · intro k hk
    show (Store.set s.shortToURL _ _ k).isSome = true ↔ _
    rw [hframe _ _ _ k hk]
  · intro q hq
    exact redirectHandler_congr s _ q (hframe _ _ _ _ hq)
  · intro k t hk hkt q hq
    have hfound : Store.set s.shortToURL (String.mk (idChars 6 s.rand)) (decode r.Body).1.URL
        (TrimPrefix q.Path "/short/") = some t := by
      rw [hq, TrimPrefix_append, hframe _ _ _ k hk, hkt]
    rw [redirectHandler_found _ q t hfound]
    exact ⟨rfl, rfl⟩
  · intro r₂ hm₂ he₂ hurl₂
    have hacc₂ : Accepted decode r₂ := ⟨hm₂, he₂, by rw [hurl₂]; exact hu⟩
    refine ⟨_, _, _, shortenHandler_accepted decode env _ r₂ hacc₂, generateShortID_six _, ?_⟩
    intro hne q hq
    have hfound : Store.set (Store.set s.shortToURL (String.mk (idChars 6 s.rand))
        (decode r.Body).1.URL) (String.mk (idChars 6 (s.rand.drop 6))) (decode r₂.Body).1.URL
        (TrimPrefix q.Path "/short/") = some u := by
      rcases hq with hq | hq
      · rw [hq, TrimPrefix_append, hframe _ _ _ _ (Ne.symm hne), Store.set_same, hurl]
      · rw [hq, TrimPrefix_append]
        rw [Store.set_same, hurl₂]
    rw [redirectHandler_found _ q u hfound]
    exact ⟨rfl, rfl⟩

/-- C10 at a concrete input: after one link exists (`abcdef`), the same URL is
shortened once more. -/
theorem shorten_frame_witness :
    ∃ resp s' id, shortenHandler sampleDecode emptyEnv freshState postCom = some (resp, s') ∧
      generateShortID freshState.rand 6 = some (id, s'.rand) ∧
      (∀ k, k ≠ id → s'.shortToURL k = freshState.shortToURL k) ∧
      (∀ k, k ≠ id →
        ((s'.shortToURL k).isSome = true ↔ (freshState.shortToURL k).isSome = true)) ∧
      (∀ q : Request, TrimPrefix q.Path "/short/" ≠ id →
        (redirectHandler s' q).1 = (redirectHandler freshState q).1) ∧
      (∀ k t, k ≠ id → freshState.shortToURL k = some t → ∀ q : Request,
        q.Path = "/short/" ++ k →
        (redirectHandler s' q).1.status = StatusFound ∧
        (redirectHandler s' q).1.redirect = some t) ∧
      (∀ r₂ : Request, r₂.Method = MethodPost → (sampleDecode r₂.Body).2 = none →
        (sampleDecode r₂.Body).1.URL = "https://example.com" →
        ∃ resp₂ s'' id₂, shortenHandler sampleDecode emptyEnv s' r₂ = some (resp₂, s'') ∧
          generateShortID s'.rand 6 = some (id₂, s''.rand) ∧
          (id₂ ≠ id → ∀ q : Request, q.Path = "/short/" ++ id ∨ q.Path = "/short/" ++ id₂ →
            (redirectHandler s'' q).1.status = StatusFound ∧
            (redirectHandler s'' q).1.redirect = some "https://example.com")) :=
  shorten_frame sampleDecode emptyEnv freshState postCom "https://example.com"
    (by decide) (by decide) (by decide) (by decide)

/-- C7, as stated, fails: a process whose random source repeats itself
generates the identifier `aaaaaa` twice, and the second accepted request
overwrites the target the first one stored.  The statement refuted is: in
every state reached from the empty store, a mapping `id ↦ t` is still
`id ↦ t` after any further sequence of requests. -/
theorem mapping_never_mutated_counterexample :
    ¬ ∀ (decode : Decoder) (env : Env) (r₀ : Rand) (cs₁ cs₂ : List Call)
        (resps₁ resps₂ : List Response) (s₁ s₂ : State) (id t : String),
        run decode env { shortToURL := Store.empty, rand := r₀ } cs₁ = some (resps₁, s₁) →
        s₁.shortToURL id = some t →
        run decode env s₁ cs₂ = some (resps₂, s₂) →
        s₂.shortToURL id = some t := by
  intro h
  obtain ⟨resps₁, s₁, h₁⟩ : ∃ resps₁ s₁,
      run sampleDecode emptyEnv stuckState [Call.shorten postCom] = some (resps₁, s₁) ∧
      s₁ = { shortToURL := Store.empty.set "aaaaaa" "https://example.com",
             rand := zeroRand.drop 6 } :=
    ⟨_, _, rfl, rfl⟩
  obtain ⟨resps₂, s₂, h₂⟩ : ∃ resps₂ s₂,
      run sampleDecode emptyEnv s₁ [Call.shorten postOrg] = some (resps₂, s₂) ∧
      s₂.shortToURL "aaaaaa" = some "https://example.org" := by
    rw [h₁.2]
    exact ⟨_, _, rfl, rfl⟩
  have hkept := h sampleDecode emptyEnv zeroRand [Call.shorten postCom] [Call.shorten postOrg]
    resps₁ resps₂ s₁ s₂ "aaaaaa" "https://example.com" h₁.1 (by rw [h₁.2]; rfl) h₂.1
  rw [h₂.2] at hkept
  exact absurd hkept (by decide)

/-- C7, amended: a link mapping is never deleted, and it changes only by
being overwritten.  For every sequence of `shortenHandler` and
`redirectHandler` requests and every random source, serving the sequence
returns; once the store maps `id` to `t`, `id` is still a key of the store
afterwards, and the store still maps `id` to `t` unless one of the accepted
shorten requests of the sequence generated the identifier `id` again. -/
theorem mapping_kept_unless_regenerated (decode : Decoder) (env : Env) (s : State)
    (cs : List Call) (id t : String) (h : s.shortToURL id = some t) :
    ∃ resps s', run decode env s cs = some (resps, s') ∧
      (s'.shortToURL id).isSome = true ∧
      (s'.shortToURL id = some t ∨
        ∃ cs₁ r cs₂ resps₁ s₁ rand', cs = cs₁ ++ Call.shorten r :: cs₂ ∧
          run decode env s cs₁ = some (resps₁, s₁) ∧ Accepted decode r ∧
          generateShortID s₁.rand 6 = some (id, rand')) := by
  obtain ⟨resps, s', hrun, hor⟩ := run_kept_or_regenerated decode env id t cs s h
  obtain ⟨resps₂, s₂, hrun₂, hsome⟩ :=
    run_key_persists decode env id cs s (by rw [h]; rfl)
  have heq : s₂ = s' := by
    have := hrun₂.symm.trans hrun
    exact (Prod.mk.inj (Option.some.inj this)).2
  exact ⟨resps, s', hrun, heq ▸ hsome, hor⟩

/-- C7 amended, at a concrete input: the link `aaaaaa` exists, then a
malformed request, a redirect and a second accepted request are served by a
process whose random source repeats itself. -/
theorem mapping_kept_unless_regenerated_witness :
    ∃ resps s', run sampleDecode emptyEnv
        { shortToURL := Store.empty.set "aaaaaa" "https://example.com", rand := zeroRand }
        [Call.shorten postGarbage, Call.redirect getUnknown, Call.shorten postOrg]
          = some (resps, s') ∧
      (s'.shortToURL "aaaaaa").isSome = true ∧
      (s'.shortToURL "aaaaaa" = some "https://example.com" ∨
        ∃ cs₁ r cs₂ resps₁ s₁ rand',
          [Call.shorten postGarbage, Call.redirect getUnknown, Call.shorten postOrg]
            = cs₁ ++ Call.shorten r :: cs₂ ∧
          run sampleDecode emptyEnv
            { shortToURL := Store.empty.set "aaaaaa" "https://example.com", rand := zeroRand }
            cs₁ = some (resps₁, s₁) ∧ Accepted sampleDecode r ∧
          generateShortID s₁.rand 6 = some ("aaaaaa", rand')) :=
  mapping_kept_unless_regenerated sampleDecode emptyEnv
    { shortToURL := Store.empty.set "aaaaaa" "https://example.com", rand := zeroRand }
    [Call.shorten postGarbage, Call.redirect getUnknown, Call.shorten postOrg]
    "aaaaaa" "https://example.com" rfl

/-- C9: store well-formedness.  Starting from the empty store, serving any
sequence of `shortenHandler` and `redirectHandler` requests returns, and in the
state reached every entry of the store has a non-empty target and a key of
exactly six characters, each in `charset` (`a-z`, `A-Z`, `0-9`); so a redirect
request whose trimmed path is empty, is not six characters long, or holds a
character that is not alphanumeric is answered `404`. -/
theorem store_well_formed (decode : Decoder) (env : Env) (r₀ : Rand) (cs : List Call) :
    ∃ resps s', run decode env { shortToURL := Store.empty, rand := r₀ } cs = some (resps, s') ∧
      (∀ k v, s'.shortToURL k = some v →
        v ≠ "" ∧ k.length = 6 ∧ ∀ c ∈ k.data, c ∈ charset.data ∧ c.isAlphanum = true) ∧
      (∀ q : Request,
        (TrimPrefix q.Path "/short/" = "" ∨ (TrimPrefix q.Path "/short/").length ≠ 6 ∨
          ∃ c ∈ (TrimPrefix q.Path "/short/").data, c.isAlphanum = false) →
        (redirectHandler s' q).1.status = StatusNotFound ∧
        (redirectHandler s' q).1.redirect = none) := by
  obtain ⟨resps, s', hrun, hwf⟩ := run_invariant decode env
    (fun st => st.shortToURL.WellFormed)
    (fun st r hst hacc => Store.set_wellFormed st.shortToURL st.rand _ hst hacc.2.2)
    cs { shortToURL := Store.empty, rand := r₀ } Store.empty_wellFormed
  refine ⟨resps, s', hrun, ?_, ?_⟩
  · intro k v hkv
    obtain ⟨hlen, halnum, hv⟩ := hwf k v hkv
    exact ⟨hv, hlen, fun c hc => ⟨mem_charset_of_isAlphanum c (halnum c hc), halnum c hc⟩⟩
  · intro q hq
    rw [redirectHandler_missing s' q (Store.lookup_malformed s'.shortToURL hwf _ hq)]
    exact ⟨rfl, rfl⟩

/-- C9 at a concrete input: after one accepted and one rejected request, a
lookup of `/short/abc/ef` (six characters, one of them a slash) is a `404`. -/
theorem store_well_formed_witness :
    ∃ resps s', run sampleDecode emptyEnv { shortToURL := Store.empty, rand := countRand }
        [Call.shorten postCom, Call.shorten postEmpty, Call.redirect getAbcdef]
          = some (resps, s') ∧
      s'.shortToURL "abcdef" = some "https://example.com" ∧
      (redirectHandler s' { Method := "GET", Path := "/short/abc/ef", Body := "" }).1.status
        = StatusNotFound :=
  match store_well_formed sampleDecode emptyEnv countRand
      [Call.shorten postCom, Call.shorten postEmpty, Call.redirect getAbcdef] with
  | ⟨resps, s', hrun, _, hbad⟩ =>
    ⟨resps, s', hrun,
      (by
        have h : s' = { shortToURL := Store.empty.set "abcdef" "https://example.com",
                        rand := countRand.drop 6 } :=
          (Prod.mk.inj (Option.some.inj (hrun.symm.trans rfl))).2
        rw [h]; rfl),
      (hbad { Method := "GET", Path := "/short/abc/ef", Body := "" }
        (Or.inr (Or.inr ⟨'/', by decide, by decide⟩))).1⟩

end LinkShortener
